import Mathlib

/-!
Verification development for the MetaHelper document retrieval-and-extraction
pipeline (query_handler.py, data_ingestor.py, vector_store_manager.py).

The Python code is shallowly embedded: Python values that flow through the
dynamically-typed parsing code are modelled by the inductive type PyVal,
Python exceptions by PyErr together with Except, and the external language
model / embedding / vector-store capabilities by oracle parameters.  Each
definition mirrors one Python function of the repository; the theorems at the
end settle the specification claims against these definitions.
-/

/-- Model of a Python value as it can arise from json.loads or from string
manipulation in query_handler.py.  JSON numbers with a fraction or exponent
are kept as their lexeme (the code never computes with them).  Dicts are
association lists whose keys are unique (insert-or-update, as Python). -/
inductive PyVal where
  | none : PyVal
  | bool : Bool → PyVal
  | int : Int → PyVal
  | float : String → PyVal
  | str : String → PyVal
  | list : List PyVal → PyVal
  | dict : List (String × PyVal) → PyVal
deriving Repr

/-- Model of the Python exceptions raised by the embedded code. -/
inductive PyErr where
  | nameError : String → PyErr
  | typeError : PyErr
  | attributeError : PyErr
  | valueError : PyErr
  | other : String → PyErr
deriving Repr, DecidableEq

/-- Rendering of an exception used when the code interpolates it into a
status string (the f-string in the except branches). -/
def errStr : PyErr → String
  | PyErr.nameError s => "name " ++ s ++ " is not defined"
  | PyErr.typeError => "TypeError"
  | PyErr.attributeError => "AttributeError"
  | PyErr.valueError => "ValueError"
  | PyErr.other s => s

/-- True exactly on string values; the "list of strings" postcondition of the
metric discoverer is phrased with this predicate. -/
def PyVal.isStr : PyVal → Bool
  | PyVal.str _ => true
  | _ => false

/-- True exactly on list values (used by the embedding wrapper's format
check, vector_store_manager.py line 100). -/
def PyVal.isList : PyVal → Bool
  | PyVal.list _ => true
  | _ => false

/-- Python truthiness, as used by bare `if x:` tests on values coming out of
json.loads.  A float lexeme is falsy when all of its digits are zero. -/
def pyTruthy : PyVal → Bool
  | PyVal.none => false
  | PyVal.bool b => b
  | PyVal.int n => !(n = 0)
  | PyVal.float s => !(s.data.all (fun c => !(c.isDigit) || c = '0'))
  | PyVal.str s => !s.isEmpty
  | PyVal.list l => !l.isEmpty
  | PyVal.dict d => !d.isEmpty

/-- Characters that must not appear literally in this file are fixed here by
code point: left brace, right brace, double quote, backslash, single quote. -/
def chLB : Char := Char.ofNat 123

/-- Right brace character. -/
def chRB : Char := Char.ofNat 125

/-- Double quote character. -/
def chQ : Char := Char.ofNat 34

/-- Backslash character. -/
def chBS : Char := Char.ofNat 92

/-- Single quote character. -/
def chSQ : Char := Char.ofNat 39

/-- Insert-or-update on an association list: the semantics of a Python dict
assignment d[k] = v.  An existing binding keeps its position and receives the
new value; a new key is appended. -/
def updInsert {β : Type} (m : List (String × β)) (k : String) (v : β) : List (String × β) :=
  match m with
  | [] => [(k, v)]
  | p :: t => if p.1 = k then (k, v) :: t else p :: updInsert t k v

/-- Lookup on an association list: the semantics of Python dict access for
dicts built with updInsert (keys are unique, the first match is the match). -/
def assocGet {β : Type} : List (String × β) → String → Option β
  | [], _ => Option.none
  | p :: t, k => if p.1 = k then some p.2 else assocGet t k

/-- Whitespace for Python str.strip(). -/
def pySpace (c : Char) : Bool :=
  c = ' ' || c = '\t' || c = '\n' || c = '\r' || c = Char.ofNat 11 || c = Char.ofNat 12

/-- Model of Python str.strip(): drop leading and trailing whitespace. -/
def pyStrip (s : String) : String :=
  String.mk (((s.data.dropWhile pySpace).reverse.dropWhile pySpace).reverse)

/-- Model of Python str.lower() on the ASCII strings the code handles. -/
def pyLower (s : String) : String := String.mk (s.data.map Char.toLower)

/-- Substring match of needle against the head of hay. -/
def prefEq : List Char → List Char → Bool
  | [], _ => true
  | _ :: _, [] => false
  | n :: ns, h :: hs => n = h && prefEq ns hs

/-- Occurrence of needle anywhere in hay. -/
def subAt (n : List Char) : List Char → Bool
  | [] => prefEq n []
  | h :: hs => prefEq n (h :: hs) || subAt n hs

/-- Model of the Python substring test needle in hay. -/
def strContainsSub (hay needle : String) : Bool := subAt needle.data hay.data

/-- Left-to-right non-overlapping replacement, the recursion behind Python
str.replace(old, new) for a non-empty old. -/
def replaceAux (old new : List Char) : Nat → List Char → List Char
  | 0, cs => cs
  | _, [] => []
  | Nat.succ fuel, c :: rest =>
    if prefEq old (c :: rest) then new ++ replaceAux old new fuel ((c :: rest).drop old.length)
    else c :: replaceAux old new fuel rest

/-- Model of Python str.replace(old, new) for a non-empty old. -/
def pyReplace (s old new : String) : String :=
  String.mk (replaceAux old.data new.data (s.length + 1) s.data)

/-- Splitting on every occurrence of a non-empty separator, the recursion
behind Python str.split(sep). -/
def pySplitAux (sep : List Char) : Nat → List Char → List Char → List (List Char)
  | 0, acc, cs => [acc.reverse ++ cs]
  | _, acc, [] => [acc.reverse]
  | Nat.succ fuel, acc, c :: rest =>
    if prefEq sep (c :: rest) then
      acc.reverse :: pySplitAux sep fuel [] ((c :: rest).drop sep.length)
    else pySplitAux sep fuel (c :: acc) rest

/-- Model of Python str.split(sep) for a non-empty separator (empty and
adjacent separators yield empty fields, no collapsing). -/
def pySplitOn (s sep : String) : List String :=
  if sep.isEmpty then [s]
  else (pySplitAux sep.data (s.length + 1) [] s.data).map String.mk

mutual

/-- Python repr() restricted to the values of PyVal; str() of a container
delegates to this (approximation: string escaping inside repr is omitted,
no embedded code depends on it). -/
def pyRepr : PyVal → String
  | PyVal.none => "None"
  | PyVal.bool b => if b then "True" else "False"
  | PyVal.int n => toString n
  | PyVal.float s => s
  | PyVal.str s => String.singleton chSQ ++ s ++ String.singleton chSQ
  | PyVal.list l => "[" ++ pyReprSeq l ++ "]"
  | PyVal.dict d => String.singleton chLB ++ pyReprFields d ++ String.singleton chRB

/-- Comma-separated repr of the elements of a list value. -/
def pyReprSeq : List PyVal → String
  | [] => ""
  | [v] => pyRepr v
  | v :: rest => pyRepr v ++ ", " ++ pyReprSeq rest

/-- Comma-separated repr of the fields of a dict value. -/
def pyReprFields : List (String × PyVal) → String
  | [] => ""
  | [(k, v)] => String.singleton chSQ ++ k ++ String.singleton chSQ ++ ": " ++ pyRepr v
  | (k, v) :: rest =>
      String.singleton chSQ ++ k ++ String.singleton chSQ ++ ": " ++ pyRepr v ++ ", " ++
        pyReprFields rest

end

/-- Python str() on a PyVal: identity on strings, repr-like otherwise. -/
def pyStr : PyVal → String
  | PyVal.str s => s
  | v => pyRepr v

/-- Python iteration over a value, as in a for-loop: lists yield elements,
strings yield one-character strings, dicts yield their keys, everything else
raises TypeError. -/
def pyIterate : PyVal → Except PyErr (List PyVal)
  | PyVal.list l => Except.ok l
  | PyVal.str s => Except.ok (s.data.map (fun c => PyVal.str (String.singleton c)))
  | PyVal.dict d => Except.ok (d.map (fun p => PyVal.str p.1))
  | _ => Except.error PyErr.typeError

/-- Python x.get(key, default): a dict lookup with default, AttributeError
on every non-dict value (query_handler.py lines 128 and 313 rely on the
surrounding try/except to absorb this). -/
def pyDictGet : PyVal → String → PyVal → Except PyErr PyVal
  | PyVal.dict d, k, dflt => Except.ok ((assocGet d k).getD dflt)
  | _, _, _ => Except.error PyErr.attributeError

/-- JSON whitespace per json.loads. -/
def jsonWs (c : Char) : Bool := c = ' ' || c = '\t' || c = '\n' || c = '\r'

/-- Drop leading JSON whitespace. -/
def skipWs (cs : List Char) : List Char := cs.dropWhile jsonWs

/-- Hex digit value for the uXXXX string escape. -/
def hexVal (c : Char) : Option Nat :=
  if '0' ≤ c ∧ c ≤ '9' then some (c.toNat - 48)
  else if 'a' ≤ c ∧ c ≤ 'f' then some (c.toNat - 87)
  else if 'A' ≤ c ∧ c ≤ 'F' then some (c.toNat - 55)
  else Option.none

/-- Body of a JSON string literal (the opening quote already consumed);
returns the decoded string and the remaining input, or fails exactly where
json.loads fails (bad escape, unescaped control character, missing quote). -/
def parseStrAux (acc : List Char) : List Char → Option (String × List Char)
  | [] => Option.none
  | c :: rest =>
    if c = chQ then some (String.mk acc.reverse, rest)
    else if c = chBS then
      match rest with
      | [] => Option.none
      | e :: rest2 =>
        if e = chQ then parseStrAux (chQ :: acc) rest2
        else if e = chBS then parseStrAux (chBS :: acc) rest2
        else if e = '/' then parseStrAux ('/' :: acc) rest2
        else if e = 'b' then parseStrAux (Char.ofNat 8 :: acc) rest2
        else if e = 'f' then parseStrAux (Char.ofNat 12 :: acc) rest2
        else if e = 'n' then parseStrAux ('\n' :: acc) rest2
        else if e = 'r' then parseStrAux ('\r' :: acc) rest2
        else if e = 't' then parseStrAux ('\t' :: acc) rest2
        else if e = 'u' then
          match rest2 with
          | h1 :: h2 :: h3 :: h4 :: rest3 =>
            match hexVal h1, hexVal h2, hexVal h3, hexVal h4 with
            | some a, some b, some c2, some d =>
                parseStrAux (Char.ofNat (((a * 16 + b) * 16 + c2) * 16 + d) :: acc) rest3
            | _, _, _, _ => Option.none
          | _ => Option.none
        else Option.none
    else if c.toNat < 32 then Option.none
    else parseStrAux (c :: acc) rest

/-- Numeric value of a digit run. -/
def digitsVal (l : List Char) : Int :=
  l.foldl (fun a c => a * 10 + ((c.toNat : Int) - 48)) 0

/-- Fractional part of a JSON number: either absent, or a dot followed by at
least one digit. -/
def parseFrac : List Char → Option (List Char × List Char)
  | [] => some ([], [])
  | p :: t =>
    if p = '.' then
      let fd := t.takeWhile Char.isDigit
      if fd.isEmpty then Option.none else some ('.' :: fd, t.drop fd.length)
    else some ([], p :: t)

/-- Exponent part of a JSON number. -/
def parseExp : List Char → Option (List Char × List Char)
  | [] => some ([], [])
  | p :: t =>
    if p = 'e' || p = 'E' then
      let sgn : List Char × List Char :=
        match t with
        | s :: t2 => if s = '+' || s = '-' then ([s], t2) else ([], t)
        | [] => ([], [])
      let ed := sgn.2.takeWhile Char.isDigit
      if ed.isEmpty then Option.none
      else some (p :: (sgn.1 ++ ed), sgn.2.drop ed.length)
    else some ([], p :: t)

/-- A JSON number per json.loads: optional minus, integer part without a
leading zero, optional fraction and exponent.  Pure integers become
PyVal.int; anything with fraction or exponent keeps its lexeme as a float. -/
def parseNumber (cs : List Char) : Option (PyVal × List Char) :=
  let signSplit : Bool × List Char :=
    match cs with
    | c :: rest => if c = '-' then (true, rest) else (false, cs)
    | [] => (false, [])
  let neg := signSplit.1
  let cs1 := signSplit.2
  let intDigits := cs1.takeWhile Char.isDigit
  if intDigits.isEmpty then Option.none
  else if intDigits.length > 1 && intDigits.headD '0' = '0' then Option.none
  else
    let rest1 := cs1.drop intDigits.length
    match parseFrac rest1 with
    | Option.none => Option.none
    | some (frac, rest2) =>
      match parseExp rest2 with
      | Option.none => Option.none
      | some (expPart, rest3) =>
        if frac.isEmpty && expPart.isEmpty then
          some (PyVal.int ((if neg then -1 else 1) * digitsVal intDigits), rest3)
        else
          some (PyVal.float (String.mk ((if neg then [Char.ofNat 45] else []) ++
            intDigits ++ frac ++ expPart)), rest3)

mutual

/-- Recursive-descent JSON value parser modelling json.loads; fuel bounds the
recursion and is always sufficient when set to the input length plus one. -/
def parseVal : Nat → List Char → Option (PyVal × List Char)
  | 0, _ => Option.none
  | Nat.succ fuel, cs0 =>
    let cs := skipWs cs0
    match cs with
    | [] => Option.none
    | c :: rest =>
      if c = chLB then
        match skipWs rest with
        | [] => Option.none
        | d :: rest2 =>
          if d = chRB then some (PyVal.dict [], rest2)
          else
            match parseFields fuel [] (d :: rest2) with
            | some (fields, r) => some (PyVal.dict fields, r)
            | Option.none => Option.none
      else if c = '[' then
        match skipWs rest with
        | [] => Option.none
        | d :: rest2 =>
          if d = ']' then some (PyVal.list [], rest2)
          else
            match parseItems fuel [] (d :: rest2) with
            | some (items, r) => some (PyVal.list items, r)
            | Option.none => Option.none
      else if c = chQ then
        match parseStrAux [] rest with
        | some (s, r) => some (PyVal.str s, r)
        | Option.none => Option.none
      else if c = 't' then
        match rest with
        | 'r' :: 'u' :: 'e' :: r => some (PyVal.bool true, r)
        | _ => Option.none
      else if c = 'f' then
        match rest with
        | 'a' :: 'l' :: 's' :: 'e' :: r => some (PyVal.bool false, r)
        | _ => Option.none
      else if c = 'n' then
        match rest with
        | 'u' :: 'l' :: 'l' :: r => some (PyVal.none, r)
        | _ => Option.none
      else parseNumber (c :: rest)

/-- Fields of a JSON object (first field not yet consumed); duplicate keys
overwrite in place, as Python's dict building does. -/
def parseFields : Nat → List (String × PyVal) → List Char → Option (List (String × PyVal) × List Char)
  | 0, _, _ => Option.none
  | Nat.succ fuel, acc, cs0 =>
    match skipWs cs0 with
    | [] => Option.none
    | c :: rest =>
      if c = chQ then
        match parseStrAux [] rest with
        | Option.none => Option.none
        | some (k, r1) =>
          match skipWs r1 with
          | ':' :: r2 =>
            match parseVal fuel r2 with
            | Option.none => Option.none
            | some (v, r3) =>
              let acc2 := updInsert acc k v
              match skipWs r3 with
              | [] => Option.none
              | d :: r4 =>
                if d = ',' then parseFields fuel acc2 r4
                else if d = chRB then some (acc2, r4)
                else Option.none
          | _ => Option.none
      else Option.none

/-- Items of a JSON array (first item not yet consumed). -/
def parseItems : Nat → List PyVal → List Char → Option (List PyVal × List Char)
  | 0, _, _ => Option.none
  | Nat.succ fuel, acc, cs0 =>
    match parseVal fuel cs0 with
    | Option.none => Option.none
    | some (v, r) =>
      match skipWs r with
      | [] => Option.none
      | d :: r2 =>
        if d = ',' then parseItems fuel (acc ++ [v]) r2
        else if d = ']' then some (acc ++ [v], r2)
        else Option.none

end

/-- Model of json.loads: the whole input, up to surrounding whitespace, must
be one JSON value; otherwise the call raises (modelled as Option.none). -/
def json_loads (s : String) : Option PyVal :=
  match parseVal (s.length + 1) s.data with
  | some (v, rest) => if (skipWs rest).isEmpty then some v else Option.none
  | Option.none => Option.none

/-- ASCII letter, the leading character class of the fallback regex in
discover_metrics_in_doc (query_handler.py line 135). -/
def isAsciiLetter (c : Char) : Bool :=
  ('A' ≤ c && c ≤ 'Z') || ('a' ≤ c && c ≤ 'z')

/-- The bracketed character class of that regex: word characters,
whitespace, slash, percent, parentheses and hyphen. -/
def isMetricClass (c : Char) : Bool :=
  isAsciiLetter c || c.isDigit || c = '_' || c.isWhitespace ||
    c = '/' || c = '%' || c = '(' || c = ')' || c = '-'

/-- Continuation of one regex match attempt after the initial letter: the
lazy class run must reach a digit, after which the greedy digit run and
trailing class run extend the match to the end of the class run. -/
def matchTail (acc : List Char) : List Char → Option (List Char × List Char)
  | [] => Option.none
  | c :: rest =>
    if c.isDigit then
      let run := (c :: rest).takeWhile isMetricClass
      some (acc ++ run, (c :: rest).drop run.length)
    else if isMetricClass c then matchTail (acc ++ [c]) rest
    else Option.none

/-- Leftmost non-overlapping scan of re.findall for the metric fallback
pattern: a letter, a lazy class run, a digit, then a greedy class run. -/
def regexFindallAux : Nat → List Char → List String
  | 0, _ => []
  | _, [] => []
  | Nat.succ fuel, c :: rest =>
    if isAsciiLetter c then
      match matchTail [c] rest with
      | some (m, rem) => String.mk m :: regexFindallAux fuel rem
      | Option.none => regexFindallAux fuel rest
    else regexFindallAux fuel rest

/-- Model of re.findall with the metric fallback pattern on a raw model
response. -/
def regexFindall (s : String) : List String :=
  regexFindallAux (s.length + 1) s.data

/-- Model of clean_json_output (query_handler.py lines 9-28): strip, then
slice from the first left brace to the last right brace inclusive; if either
brace is missing, return the stripped text unchanged. -/
def clean_json_output (text : String) : String :=
  let t := pyStrip text
  let cs := t.data
  match cs.findIdx? (fun c => c = chLB) with
  | Option.none => t
  | some start =>
    match cs.reverse.findIdx? (fun c => c = chRB) with
    | Option.none => t
    | some j =>
      let stop := cs.length - 1 - j
      String.mk ((cs.drop start).take (stop + 1 - start))

/-- Model of the helper _force_strings (query_handler.py lines 89-102): a
dict prefers its "metric" key, then its first value, then its own repr;
every other value goes through str(). -/
def forceString1 (m : PyVal) : PyVal :=
  match m with
  | PyVal.dict d =>
    match assocGet d "metric" with
    | some v => PyVal.str (pyStr v)
    | Option.none =>
      match d with
      | [] => PyVal.str (pyStr (PyVal.dict []))
      | (_, v0) :: _ => PyVal.str (pyStr v0)
  | v => PyVal.str (pyStr v)

/-- The list-level _force_strings. -/
def forceStrings (l : List PyVal) : List PyVal := l.map forceString1

/-- The regex fallback branch of discover_metrics_in_doc (lines 134-141):
force the regex candidates into strings; an empty candidate list yields the
"no numeric-like metrics found" status. -/
def discoverFallback (raw_output : String) : List PyVal × String :=
  let fb := forceStrings ((regexFindall raw_output).map PyVal.str)
  if fb.isEmpty then ([], "Discovery complete but no numeric-like metrics found.")
  else (fb, "Discovery fallback: parsed metrics from raw text.")

/-- Parsing of one raw completion output by discover_metrics_in_doc (lines
125-141): strict json.loads on the raw output (no prose stripping), then
.get("metrics", []), then _force_strings; any exception in that inner block,
or an empty resulting list, falls back to the regex scan.  The surrounding
session-state checks and the model invocation itself are outside this
embedding. -/
def discoverParse (raw_output : String) : List PyVal × String :=
  match json_loads raw_output with
  | Option.none => discoverFallback raw_output
  | some answer_json =>
    match pyDictGet answer_json "metrics" (PyVal.list []) with
    | Except.error _ => discoverFallback raw_output
    | Except.ok metricsVal =>
      match pyIterate metricsVal with
      | Except.error _ => discoverFallback raw_output
      | Except.ok elems =>
        if (forceStrings elems).isEmpty then discoverFallback raw_output
        else (forceStrings elems, "Discovery successful.")

/-- A retrieved document chunk as returned by the vector-store retriever
(only page_content is consulted by the embedded code). -/
structure RDoc where
  page_content : String
deriving Repr, DecidableEq

/-- External capabilities consumed by one run of extract_outcome_from_doc:
the two retrievers (stage 1 is the k=5 section-filtered one, stage 2 the
k=40 source-only one) and the content of the two completion calls.  Each can
raise, modelled by Except. -/
structure ExtractEnv where
  locatorRetrieve : String → Except PyErr (List RDoc)
  locatorLLM : Except PyErr String
  extractorRetrieve : String → Except PyErr (List RDoc)
  extractorLLM : Except PyErr String

/-- Stage-1 name resolution (query_handler.py lines 308-315): the default is
the user's outcome text; the try block replaces it only when the cleaned
model output parses as JSON, is a dict, and holds a truthy
"exact_metric_name" field; every exception is swallowed. -/
def locateExactName (llmOut : Except PyErr String) (user_outcome : String) : PyVal :=
  match llmOut with
  | Except.error _ => PyVal.str user_outcome
  | Except.ok content =>
    match json_loads (clean_json_output content) with
    | Option.none => PyVal.str user_outcome
    | some answer_json =>
      match answer_json with
      | PyVal.dict d =>
        match assocGet d "exact_metric_name" with
        | some mv => if pyTruthy mv then mv else PyVal.str user_outcome
        | Option.none => PyVal.str user_outcome
      | _ => PyVal.str user_outcome

/-- The merge-and-deduplicate dict comprehension of stage 2 (line 344):
keys are chunk texts in first-seen order, values are overwritten by later
duplicates, and the result is the list of values in key order. -/
def dedupByText (docs : List RDoc) : List RDoc :=
  (docs.foldl (fun m d => updInsert m d.page_content d) []).map (fun p => p.2)

/-- The ensemble retrieval of stage 2 (lines 333-346): always query with the
anchor (the user's outcome text); query again with the exact metric name
only when it is truthy and differs case-insensitively from the anchor (a
truthy non-string raises AttributeError at .lower(), uncaught in the
source); merge and deduplicate by chunk text.  The second component records
the queries issued, in order. -/
def ensembleRetrieve (retrieve : String → Except PyErr (List RDoc)) (user_outcome : String)
    (exact : PyVal) : Except PyErr (List RDoc × List String) :=
  match retrieve user_outcome with
  | Except.error e => Except.error e
  | Except.ok chunks_original =>
    match exact with
    | PyVal.str s =>
      if s.isEmpty then Except.ok (dedupByText chunks_original, [user_outcome])
      else if pyLower s = pyLower user_outcome then
        Except.ok (dedupByText chunks_original, [user_outcome])
      else
        match retrieve s with
        | Except.error e => Except.error e
        | Except.ok chunks_specific =>
          Except.ok (dedupByText (chunks_original ++ chunks_specific), [user_outcome, s])
    | v =>
      if pyTruthy v then Except.error PyErr.attributeError
      else Except.ok (dedupByText chunks_original, [user_outcome])

/-- Stage 2, the "Scooper" (lines 317-386): ensemble retrieval, then — when
the merged context is empty — the return statement at line 349 evaluates the
name metric_definition, which is not defined in this version of the
function, so Python raises NameError; otherwise the extractor completion is
invoked, its failure is converted to a (None, status) pair, an empty answer
to the value-not-found sentinel, and a non-empty answer to the data block
itself.  The returned Python tuple is modelled as a list of PyVal. -/
def scoopStage (env : ExtractEnv) (user_outcome : String) (exact : PyVal) :
    Except PyErr (List PyVal) :=
  match ensembleRetrieve env.extractorRetrieve user_outcome exact with
  | Except.error e => Except.error e
  | Except.ok (ctx, _queries) =>
    if ctx.isEmpty then Except.error (PyErr.nameError "metric_definition")
    else
      match env.extractorLLM with
      | Except.error e =>
        Except.ok [PyVal.none, PyVal.str ("An error occurred during extraction: " ++ errStr e)]
      | Except.ok content =>
        let data_block := pyStrip content
        if data_block.isEmpty then
          Except.ok [PyVal.str "N/A (Value not found in text)", PyVal.str "Extraction complete."]
        else Except.ok [PyVal.str data_block, PyVal.str "Extraction successful."]

/-- Model of extract_outcome_from_doc (lines 275-386) for a session whose
vector store and model handle exist: stage-1 retrieval (uncaught, so its
exception propagates), the empty-locator short-circuit, stage-1 name
resolution, then stage 2. -/
def extract_outcome_from_doc (env : ExtractEnv) (user_outcome : String) :
    Except PyErr (List PyVal) :=
  match env.locatorRetrieve user_outcome with
  | Except.error e => Except.error e
  | Except.ok locator_chunks =>
    if locator_chunks.isEmpty then
      Except.ok [PyVal.str "N/A (No relevant sections found)", PyVal.str "Extraction complete."]
    else scoopStage env user_outcome (locateExactName env.locatorLLM user_outcome)

/-- Model of Python int() on a string: optional surrounding whitespace, an
optional sign, then decimal digits; anything else raises ValueError
(modelled as Option.none). -/
def pyIntOfStr (s : String) : Option Int :=
  let t := pyStrip s
  let signSplit : Bool × List Char :=
    match t.data with
    | c :: rest =>
      if c = '-' then (true, rest) else if c = '+' then (false, rest) else (false, t.data)
    | [] => (false, [])
  if signSplit.2.isEmpty then Option.none
  else if signSplit.2.all Char.isDigit then
    some ((if signSplit.1 then -1 else 1) * digitsVal signSplit.2)
  else Option.none

/-- Method A of find_relevant_table_titles (query_handler.py lines 675-687):
strip spaces, split on commas, int() every token (a ValueError anywhere
abandons the method), keep 1-based indices in range, then slice with [:1]
(the comment above that line says "Limit to top 4" but the code keeps one);
an empty selection also abandons the method.  Option.none means control
falls through to method B. -/
def strategy1 (all_titles : List String) (response_content : String) : Option (List String) :=
  let parts := pySplitOn (pyReplace response_content " " "") ","
  match parts.mapM (fun n => pyIntOfStr (pyStrip n)) with
  | Option.none => Option.none
  | some numbers =>
    let selected := ((numbers.filter (fun n => decide (0 < n) && decide (n ≤ (all_titles.length : Int)))).map
      (fun n => n - 1)).take 1
    if selected.isEmpty then Option.none
    else some (selected.map (fun i => all_titles.getD i.toNat ""))

/-- A chunk produced by the ingester; the field sec carries the Python dict
key "section" (the word itself is a Lean keyword). -/
structure IngestChunk where
  text : String
  sec : String
deriving Repr, DecidableEq

/-- One iteration of the paragraph loop of chunk_text (data_ingestor.py
lines 344-350): skip blank paragraphs, grow the buffer while the next
paragraph still fits, otherwise flush the stripped buffer as a chunk tagged
with this section's title and restart the buffer from the paragraph. -/
def chunkStep (chunk_size : Nat) (title : String) (st : String × List IngestChunk)
    (para : String) : String × List IngestChunk :=
  if (pyStrip para).isEmpty then st
  else if st.1.length + para.length + 2 ≤ chunk_size then (st.1 ++ para ++ "\n\n", st.2)
  else if st.1.isEmpty then (para ++ "\n\n", st.2)
  else (para ++ "\n\n", st.2 ++ [⟨pyStrip st.1, title⟩])

/-- The inner per-section loop of chunk_text (data_ingestor.py lines
342-351): fold the section's blank-line-separated paragraphs through
chunkStep and flush the stripped remainder at the end. -/
def sectionChunks (chunk_size : Nat) (title text : String) : List IngestChunk :=
  let fin := (pySplitOn text "\n\n").foldl (chunkStep chunk_size title) ("", [])
  if (pyStrip fin.1).isEmpty then fin.2 else fin.2 ++ [⟨pyStrip fin.1, title⟩]

/-- Model of chunk_text (data_ingestor.py lines 336-352); the chunk_overlap
parameter of the source is accepted and, as in the source body, never used.
Sections are processed independently: the buffer is reset at each section,
so the flat result is the concatenation of the per-section chunk lists, and
a section whose text strips to nothing is skipped. -/
def chunk_text (chunk_size : Nat) (_chunk_overlap : Nat) (sections : List (String × String)) :
    List IngestChunk :=
  sections.flatMap (fun s => if (pyStrip s.2).isEmpty then [] else sectionChunks chunk_size s.1 s.2)

/-- First-occurrence deduplication, the specification-side description of
both the stage-2 chunk dedup and the per-document canonical-metric set. -/
def firstSeenAux {α : Type} [DecidableEq α] (seen : List α) : List α → List α
  | [] => []
  | x :: xs => if x ∈ seen then firstSeenAux seen xs else x :: firstSeenAux (x :: seen) xs

/-- First-occurrence deduplication of a list. -/
def firstSeen {α : Type} [DecidableEq α] (l : List α) : List α := firstSeenAux [] l

/-- The synonym-to-canonical inversion of the normalizer map
(query_handler.py line 249): a dict comprehension over all (canonical,
synonyms) pairs keyed by the lowercased synonym; a synonym listed under two
canonical names keeps its first position with the last canonical value. -/
def synonymToCanonical (nm : List (String × List String)) : List (String × String) :=
  (nm.flatMap (fun p => p.2.map (fun syn => (pyLower syn, p.1)))).foldl
    (fun m kv => updInsert m kv.1 kv.2) []

/-- The per-document canonical set (lines 254-257): the set of canonical
names reached by a case-insensitive lookup of each raw metric, modelled as
the first-seen deduplication of the successful lookups. -/
def docCanonicalSet (s2c : List (String × String)) (metrics : List String) : List String :=
  firstSeen (metrics.filterMap (fun m => assocGet s2c (pyLower m)))

/-- One counting step: canonical_counts[c] = canonical_counts.get(c, 0) + 1. -/
def bumpCount (counts : List (String × Nat)) (c : String) : List (String × Nat) :=
  updInsert counts c ((assocGet counts c).getD 0 + 1)

/-- The document-count accumulation (lines 252-260): every document
contributes one increment per canonical metric in its set. -/
def canonicalCounts (s2c : List (String × String)) (docsMetrics : List (List String)) :
    List (String × Nat) :=
  docsMetrics.foldl (fun counts ms => (docCanonicalSet s2c ms).foldl bumpCount counts) []

/-- One row of the final metrics table: canonical name, number of documents,
and prevalence (the source's float arithmetic is modelled exactly over the
rationals). -/
structure MetricRow where
  name : String
  count : Nat
  prevalence : ℚ
deriving Repr, DecidableEq

/-- Descending order on document counts, the sort key of the output table. -/
def rowGE (a b : MetricRow) : Prop := b.count ≤ a.count

instance : DecidableRel rowGE := fun a b => Nat.decLe b.count a.count

instance : IsTotal MetricRow rowGE := ⟨fun a b => Nat.le_total b.count a.count⟩

instance : IsTrans MetricRow rowGE := ⟨fun _ _ _ h1 h2 => Nat.le_trans h2 h1⟩

/-- Phase 3 of discover_and_normalize_metrics_from_library (lines 247-271):
invert the normalizer map, count documents per canonical metric, attach
prevalence = count / totalDocs * 100, and sort descending by count
(df.sort_values modelled as an insertion sort by rowGE). -/
def libraryMetricsTable (nm : List (String × List String)) (docsMetrics : List (List String))
    (totalDocs : Nat) : List MetricRow :=
  let s2c := synonymToCanonical nm
  let rows := (canonicalCounts s2c docsMetrics).map
    (fun p => MetricRow.mk p.1 p.2 (((p.2 : ℚ) / (totalDocs : ℚ)) * 100))
  List.insertionSort rowGE rows

/-- Outcome of the HTTP round trip inside CustomHuggingFaceEmbeddings._embed
(vector_store_manager.py lines 88-113): a requests exception (including
raise_for_status), a JSON decode failure, or a parsed JSON body. -/
inductive EmbedApiOutcome where
  | requestError : String → EmbedApiOutcome
  | jsonError : EmbedApiOutcome
  | ok : PyVal → EmbedApiOutcome

/-- The format check of _embed: the body must be a list whose elements are
all lists. -/
def embedWellFormed : PyVal → Bool
  | PyVal.list es => es.all (fun e => e.isList)
  | _ => false

/-- Model of CustomHuggingFaceEmbeddings._embed: every failure path returns
None (modelled as Option.none); a well-formed body returns its vectors. -/
def CustomHFEmbeddings_embed (o : EmbedApiOutcome) : Option (List PyVal) :=
  match o with
  | EmbedApiOutcome.requestError _ => Option.none
  | EmbedApiOutcome.jsonError => Option.none
  | EmbedApiOutcome.ok v =>
    if embedWellFormed v then
      match v with
      | PyVal.list es => some es
      | _ => Option.none
    else Option.none

/-- Model of CustomHuggingFaceEmbeddings.embed_query (lines 119-122):
result[0] if result else [] — both a None result and an empty result
collapse to the empty list. -/
def embed_query (o : EmbedApiOutcome) : PyVal :=
  match CustomHFEmbeddings_embed o with
  | some (e :: _) => e
  | _ => PyVal.list []

/-- The unique-source enumeration of generate_outcome_table (line 512):
sorted(set(...)) over the chunk metadata sources. -/
def uniqueSources (metaSources : List String) : List String :=
  List.insertionSort (fun a b : String => a ≤ b) (firstSeen metaSources)

/-- The row-building loop of generate_outcome_table (lines 520-563): iterate
the unique sources in order, silently skip any whose URL contains
"clinicaltrials.gov" before extraction, and append exactly one row per
remaining source; everything in a row other than its source column is
abstracted as rowBody. -/
def generate_outcome_table_rowlist {β : Type} (rowBody : String → β) (metaSources : List String) :
    List (String × β) :=
  (uniqueSources metaSources).foldl
    (fun acc src =>
      if strContainsSub src "clinicaltrials.gov" then acc
      else acc ++ [(src, rowBody src)]) []

/-- Keys of an association list, in order. -/
def keysOf {β : Type} (m : List (String × β)) : List String := m.map (fun p => p.1)

/-- Count held by the canonical-counts dict for one name (0 when absent). -/
def getCount (m : List (String × Nat)) (c : String) : Nat := (assocGet m c).getD 0

/-- Environment for the failure-mode evaluation: the stage-1 retrieval call
raises. -/
def exEnvRaise : ExtractEnv :=
  ExtractEnv.mk (fun _ => Except.error (PyErr.other "retrieval down")) (Except.ok "")
    (fun _ => Except.ok []) (Except.ok "")

/-- Environment for the failure-mode evaluation: both retrievals succeed,
both completion calls raise. -/
def exEnvLLMBoom : ExtractEnv :=
  ExtractEnv.mk (fun _ => Except.ok [RDoc.mk "c"]) (Except.error PyErr.valueError)
    (fun _ => Except.ok [RDoc.mk "c"]) (Except.error (PyErr.other "boom"))

/-- Environment for the failure-mode evaluation: stage-2 retrieval returns
no chunks. -/
def exEnvEmptyScoop : ExtractEnv :=
  ExtractEnv.mk (fun _ => Except.ok [RDoc.mk "c"]) (Except.error PyErr.valueError)
    (fun _ => Except.ok []) (Except.ok "answer")

/-- Environment whose stage-1 completion output is the literal null that the
locator prompt itself invites ("If not found, return null"): it parses to a
non-dict JSON value, whose .get raises AttributeError inside the try. -/
def exEnvNullLocator : ExtractEnv :=
  ExtractEnv.mk (fun _ => Except.ok [RDoc.mk "chunk"]) (Except.ok "null")
    (fun _ => Except.ok [RDoc.mk "chunk"]) (Except.ok "42 mg")

/-- A deterministic one-chunk retriever. -/
def retrOne : String → Except PyErr (List RDoc) := fun _ => Except.ok [RDoc.mk "chunkA"]

/-- The prose-wrapped completion response of the discovery scenario. -/
def c8Input : String := "The answer is \x7b\"metrics\": [\"Sample Size\", 42]\x7d"

/-- The canonical map of the aggregation scenario. -/
def c6Map : List (String × List String) :=
  [("BMI (kg/m^2)", ["BMI", "Body Mass Index"]), ("Age (years)", ["Age"])]

/-- The single document's raw metric names of the aggregation scenario. -/
def c6Docs : List (List String) := [["BMI", "Body Mass Index", "Age"]]

/-- The section list of the chunking scenario. -/
def sections0 : List (String × String) :=
  [("Abstract", "Study of X."), ("Results", "A: 10mg. B: 12mg.")]

/-- The metadata sources of the table-generation scenario. -/
def msC10 : List String := ["https://pubmed.x/1", "https://clinicaltrials.gov/study/NCT1"]

theorem mem_firstSeenAux {α : Type} [DecidableEq α] (l : List α) (seen : List α) (y : α) :
    y ∈ firstSeenAux seen l ↔ (y ∈ l ∧ y ∉ seen) := by
  induction l generalizing seen with
  | nil => simp [firstSeenAux]
  | cons x xs ih =>
    by_cases hx : x ∈ seen
    · rw [firstSeenAux, if_pos hx, ih]
      simp only [List.mem_cons]
      constructor
      · exact fun h => ⟨Or.inr h.1, h.2⟩
      · rintro ⟨h1 | h1, h2⟩
        · exact absurd (h1 ▸ hx) h2
        · exact ⟨h1, h2⟩
    · rw [firstSeenAux, if_neg hx]
      constructor
      · intro h
        rcases List.mem_cons.mp h with rfl | h'
        · exact ⟨List.mem_cons_self _ _, hx⟩
        · rcases (ih (x :: seen)).mp h' with ⟨h1, h2⟩
          exact ⟨List.mem_cons_of_mem _ h1, fun hs => h2 (List.mem_cons_of_mem _ hs)⟩
      · rintro ⟨h1, h2⟩
        rcases List.mem_cons.mp h1 with rfl | h1'
        · exact List.mem_cons_self _ _
        · rcases eq_or_ne y x with rfl | hne
          · exact List.mem_cons_self _ _
          · refine List.mem_cons_of_mem _ ((ih (x :: seen)).mpr ⟨h1', fun hs => ?_⟩)
            rcases List.mem_cons.mp hs with h | h
            · exact hne h
            · exact h2 h

theorem nodup_firstSeenAux {α : Type} [DecidableEq α] (l : List α) (seen : List α) :
    (firstSeenAux seen l).Nodup := by
  induction l generalizing seen with
  | nil => simp [firstSeenAux]
  | cons x xs ih =>
    by_cases hx : x ∈ seen
    · rw [firstSeenAux, if_pos hx]; exact ih seen
    · rw [firstSeenAux, if_neg hx]
      refine List.nodup_cons.mpr ⟨?_, ih (x :: seen)⟩
      rw [mem_firstSeenAux]
      rintro ⟨-, h2⟩
      exact h2 (List.mem_cons_self x seen)

theorem firstSeenAux_congr {α : Type} [DecidableEq α] {seen1 seen2 : List α} (l : List α)
    (h : ∀ y, y ∈ seen1 ↔ y ∈ seen2) : firstSeenAux seen1 l = firstSeenAux seen2 l := by
  induction l generalizing seen1 seen2 with
  | nil => rfl
  | cons x xs ih =>
    by_cases hx : x ∈ seen1
    · rw [firstSeenAux, if_pos hx, firstSeenAux, if_pos ((h x).mp hx), ih h]
    · have h' : ∀ y, y ∈ x :: seen1 ↔ y ∈ x :: seen2 := fun y => by
        rw [List.mem_cons, List.mem_cons, h y]
      rw [firstSeenAux, if_neg hx, firstSeenAux, if_neg (fun hc => hx ((h x).mpr hc)), ih h']

theorem mem_firstSeen {α : Type} [DecidableEq α] (l : List α) (y : α) :
    y ∈ firstSeen l ↔ y ∈ l := by
  rw [firstSeen, mem_firstSeenAux]
  simp

theorem nodup_firstSeen {α : Type} [DecidableEq α] (l : List α) : (firstSeen l).Nodup :=
  nodup_firstSeenAux l []

theorem assocGet_updInsert {β : Type} (m : List (String × β)) (k x : String) (v : β) :
    assocGet (updInsert m k v) x = if x = k then some v else assocGet m x := by
  induction m with
  | nil =>
    by_cases h : x = k
    · subst h; simp [updInsert, assocGet]
    · simp [updInsert, assocGet, h, Ne.symm h]
  | cons p t ih =>
    by_cases hp : p.1 = k
    · rw [updInsert, if_pos hp]
      by_cases hx : x = k
      · subst hx; simp [assocGet]
      · simp [assocGet, hp, hx, Ne.symm hx]
    · rw [updInsert, if_neg hp]
      by_cases hq : p.1 = x
      · have hx : ¬(x = k) := fun hc => hp (hq.trans hc)
        simp [assocGet, hq, hx]
      · simp [assocGet, hq, ih]

theorem keysOf_cons {β : Type} (p : String × β) (t : List (String × β)) :
    keysOf (p :: t) = p.1 :: keysOf t := rfl

theorem keysOf_updInsert {β : Type} (m : List (String × β)) (k : String) (v : β) :
    keysOf (updInsert m k v) = if k ∈ keysOf m then keysOf m else keysOf m ++ [k] := by
  induction m with
  | nil => simp [updInsert, keysOf]
  | cons p t ih =>
    by_cases hp : p.1 = k
    · rw [updInsert, if_pos hp, if_pos (by rw [keysOf_cons, hp]; exact List.mem_cons_self _ _)]
      rw [keysOf_cons, keysOf_cons, hp]
    · rw [updInsert, if_neg hp, keysOf_cons, ih]
      by_cases hk : k ∈ keysOf t
      · rw [if_pos hk,
          if_pos (by rw [keysOf_cons]; exact List.mem_cons_of_mem _ hk), keysOf_cons]
      · have hk2 : ¬(k ∈ keysOf (p :: t)) := by
          rw [keysOf_cons, List.mem_cons]
          rintro (h | h)
          · exact hp h.symm
          · exact hk h
        rw [if_neg hk, if_neg hk2, keysOf_cons, List.cons_append]

theorem nodupKeys_updInsert {β : Type} (m : List (String × β)) (k : String) (v : β)
    (h : (keysOf m).Nodup) : (keysOf (updInsert m k v)).Nodup := by
  rw [keysOf_updInsert]
  by_cases hk : k ∈ keysOf m
  · rwa [if_pos hk]
  · rw [if_neg hk]
    simp [List.nodup_append, h, hk]

theorem mem_updInsert {β : Type} {m : List (String × β)} {k : String} {v : β} {p : String × β}
    (hp : p ∈ updInsert m k v) : p = (k, v) ∨ p ∈ m := by
  induction m with
  | nil => simpa [updInsert] using hp
  | cons q t ih =>
    by_cases hq : q.1 = k
    · rw [updInsert, if_pos hq] at hp
      rcases List.mem_cons.mp hp with rfl | hp'
      · exact Or.inl rfl
      · exact Or.inr (List.mem_cons_of_mem _ hp')
    · rw [updInsert, if_neg hq] at hp
      rcases List.mem_cons.mp hp with rfl | hp'
      · exact Or.inr (List.mem_cons_self _ _)
      · rcases ih hp' with h | h
        · exact Or.inl h
        · exact Or.inr (List.mem_cons_of_mem _ h)

theorem assocGet_of_mem {β : Type} {m : List (String × β)} {p : String × β}
    (hm : (keysOf m).Nodup) (hp : p ∈ m) : assocGet m p.1 = some p.2 := by
  induction m with
  | nil => cases hp
  | cons q t ih =>
    rcases List.mem_cons.mp hp with rfl | hp'
    · simp [assocGet]
    · have hm' := hm
      simp only [keysOf, List.map_cons, List.nodup_cons] at hm'
      have hq : ¬(q.1 = p.1) := fun he => hm'.1 (he ▸ List.mem_map.mpr ⟨p, hp', rfl⟩)
      rw [assocGet, if_neg hq]
      exact ih (by simpa [keysOf] using hm'.2) hp'

theorem getCount_bump (m : List (String × Nat)) (c x : String) :
    getCount (bumpCount m c) x = if x = c then getCount m x + 1 else getCount m x := by
  simp only [getCount, bumpCount, assocGet_updInsert]
  by_cases h : x = c
  · subst h; simp
  · simp [h]

theorem getCount_foldl_bump :
    ∀ (S : List String), S.Nodup → ∀ (m : List (String × Nat)) (x : String),
      getCount (S.foldl bumpCount m) x = getCount m x + (if x ∈ S then 1 else 0) := by
  intro S
  induction S with
  | nil => intro _ m x; simp
  | cons a t ih =>
    intro hS m x
    rcases List.nodup_cons.mp hS with ⟨ha, ht⟩
    rw [List.foldl_cons, ih ht, getCount_bump]
    by_cases hx : x = a
    · subst hx
      rw [if_pos rfl, if_neg ha, if_pos (List.mem_cons_self _ _)]
    · rw [if_neg hx]
      by_cases hxt : x ∈ t
      · rw [if_pos hxt, if_pos (List.mem_cons_of_mem _ hxt)]
      · rw [if_neg hxt, if_neg (by rw [List.mem_cons]; rintro (h | h); exact hx h; exact hxt h)]

theorem nodupKeys_foldl_bump :
    ∀ (S : List String) (m : List (String × Nat)), (keysOf m).Nodup →
      (keysOf (S.foldl bumpCount m)).Nodup := by
  intro S
  induction S with
  | nil => intro m h; exact h
  | cons a t ih =>
    intro m h
    rw [List.foldl_cons]
    exact ih _ (nodupKeys_updInsert _ _ _ h)

theorem nodup_docCanonicalSet (s2c : List (String × String)) (d : List String) :
    (docCanonicalSet s2c d).Nodup := nodup_firstSeen _

theorem mem_docCanonicalSet (s2c : List (String × String)) (d : List String) (x : String) :
    x ∈ docCanonicalSet s2c d ↔ ∃ m ∈ d, assocGet s2c (pyLower m) = some x := by
  rw [docCanonicalSet, mem_firstSeen, List.mem_filterMap]

theorem getCount_canonicalCounts (s2c : List (String × String)) (docs : List (List String))
    (x : String) :
    getCount (canonicalCounts s2c docs) x
      = docs.countP (fun d => decide (x ∈ docCanonicalSet s2c d)) := by
  suffices h : ∀ (m : List (String × Nat)),
      getCount (docs.foldl (fun counts ms => (docCanonicalSet s2c ms).foldl bumpCount counts) m) x
        = getCount m x + docs.countP (fun d => decide (x ∈ docCanonicalSet s2c d)) by
    have h0 := h []
    rw [canonicalCounts, h0]
    simp [getCount, assocGet]
  induction docs with
  | nil => intro m; simp
  | cons d t ih =>
    intro m
    rw [List.foldl_cons, ih, getCount_foldl_bump _ (nodup_docCanonicalSet s2c d), List.countP_cons]
    by_cases hd : x ∈ docCanonicalSet s2c d
    · rw [if_pos hd]
      simp [hd]
      omega
    · rw [if_neg hd]
      simp [hd]

theorem nodupKeys_canonicalCounts (s2c : List (String × String)) (docs : List (List String)) :
    (keysOf (canonicalCounts s2c docs)).Nodup := by
  rw [canonicalCounts]
  suffices h : ∀ (m : List (String × Nat)), (keysOf m).Nodup →
      (keysOf (docs.foldl (fun counts ms => (docCanonicalSet s2c ms).foldl bumpCount counts) m)).Nodup by
    exact h [] (by simp [keysOf])
  induction docs with
  | nil => intro m h; exact h
  | cons d t ih =>
    intro m h
    rw [List.foldl_cons]
    exact ih _ (nodupKeys_foldl_bump _ _ h)

theorem countVal_of_mem_canonicalCounts {s2c : List (String × String)}
    {docs : List (List String)} {p : String × Nat} (hp : p ∈ canonicalCounts s2c docs) :
    p.2 = docs.countP (fun d => decide (p.1 ∈ docCanonicalSet s2c d)) := by
  have h1 := assocGet_of_mem (nodupKeys_canonicalCounts s2c docs) hp
  have h2 := getCount_canonicalCounts s2c docs p.1
  rw [getCount, h1] at h2
  simpa using h2

theorem countP_ext {α : Type} (p q : α → Bool) (l : List α) (h : ∀ a, p a = q a) :
    l.countP p = l.countP q := by
  induction l with
  | nil => simp
  | cons a t ih => rw [List.countP_cons, List.countP_cons, ih, h a]

theorem decide_mem_docCanonicalSet (s2c : List (String × String)) (x : String)
    (d : List String) :
    decide (x ∈ docCanonicalSet s2c d) = d.any (fun m => assocGet s2c (pyLower m) == some x) := by
  have h : (d.any (fun m => assocGet s2c (pyLower m) == some x)) = true
      ↔ x ∈ docCanonicalSet s2c d := by
    rw [List.any_eq_true, mem_docCanonicalSet]
    constructor
    · rintro ⟨m, hm, hb⟩
      exact ⟨m, hm, by simpa using hb⟩
    · rintro ⟨m, hm, he⟩
      exact ⟨m, hm, by simp [he]⟩
  by_cases hx : x ∈ docCanonicalSet s2c d
  · rw [decide_eq_true hx, (h.mpr hx).symm]
  · rw [decide_eq_false hx]
    rcases Bool.eq_false_or_eq_true (d.any (fun m => assocGet s2c (pyLower m) == some x)) with hb | hb
    · exact absurd (h.mp hb) hx
    · rw [hb]

theorem keysOf_foldl_upd (docs : List RDoc) :
    ∀ (m : List (String × RDoc)),
      keysOf (docs.foldl (fun m d => updInsert m d.page_content d) m)
        = keysOf m ++ firstSeenAux (keysOf m) (docs.map (fun d => d.page_content)) := by
  induction docs with
  | nil => intro m; simp [firstSeenAux]
  | cons d t ih =>
    intro m
    rw [List.foldl_cons, List.map_cons, firstSeenAux, ih, keysOf_updInsert]
    by_cases h : d.page_content ∈ keysOf m
    · rw [if_pos h, if_pos h]
    · rw [if_neg h, if_neg h]
      rw [firstSeenAux_congr (t.map (fun d => d.page_content))
        (show ∀ y, y ∈ keysOf m ++ [d.page_content] ↔ y ∈ d.page_content :: keysOf m from
          fun y => by simp only [List.mem_append, List.mem_cons, List.mem_singleton,
            List.not_mem_nil, or_false]; tauto)]
      rw [List.append_assoc, List.singleton_append]

theorem foldUpd_key_eq (docs : List RDoc) :
    ∀ (m : List (String × RDoc)), (∀ p ∈ m, p.1 = p.2.page_content) →
      ∀ p ∈ docs.foldl (fun m d => updInsert m d.page_content d) m, p.1 = p.2.page_content := by
  induction docs with
  | nil => intro m h; exact h
  | cons d t ih =>
    intro m h
    rw [List.foldl_cons]
    refine ih _ ?_
    intro p hp
    rcases mem_updInsert hp with rfl | hp'
    · rfl
    · exact h p hp'

theorem dedupByText_texts (docs : List RDoc) :
    (dedupByText docs).map (fun d => d.page_content)
      = firstSeen (docs.map (fun d => d.page_content)) := by
  rw [dedupByText, firstSeen, List.map_map]
  have h1 : ∀ p ∈ docs.foldl (fun m d => updInsert m d.page_content d) [],
      p.1 = p.2.page_content := foldUpd_key_eq docs [] (by simp)
  have h2 : (docs.foldl (fun m d => updInsert m d.page_content d) []).map
        ((fun d => d.page_content) ∘ (fun p => p.2))
      = (docs.foldl (fun m d => updInsert m d.page_content d) []).map (fun p => p.1) := by
    refine List.map_congr_left ?_
    intro p hp
    exact (h1 p hp).symm
  rw [h2]
  have h3 := keysOf_foldl_upd docs []
  simp only [keysOf] at h3
  rw [h3]
  simp [keysOf]

theorem sectionChunks_sec (chunk_size : Nat) (title text : String) :
    ∀ c ∈ sectionChunks chunk_size title text, c.sec = title := by
  have hstep : ∀ (st : String × List IngestChunk) (para : String)
      (c : IngestChunk), c ∈ (chunkStep chunk_size title st para).2 → c ∈ st.2 ∨ c.sec = title := by
    intro st para c hc
    rw [chunkStep] at hc
    by_cases h1 : (pyStrip para).isEmpty
    · rw [if_pos h1] at hc; exact Or.inl hc
    · rw [if_neg h1] at hc
      by_cases h2 : st.1.length + para.length + 2 ≤ chunk_size
      · rw [if_pos h2] at hc; exact Or.inl hc
      · rw [if_neg h2] at hc
        by_cases h3 : st.1.isEmpty
        · rw [if_pos h3] at hc; exact Or.inl hc
        · rw [if_neg h3] at hc
          rcases List.mem_append.mp hc with h | h
          · exact Or.inl h
          · rw [List.mem_singleton] at h
            subst h
            exact Or.inr rfl
  have hfold : ∀ (paras : List String) (st : String × List IngestChunk),
      (∀ c ∈ st.2, c.sec = title) →
      ∀ c ∈ (paras.foldl (chunkStep chunk_size title) st).2, c.sec = title := by
    intro paras
    induction paras with
    | nil => intro st h; exact h
    | cons p t ih =>
      intro st h
      rw [List.foldl_cons]
      refine ih _ ?_
      intro c hc
      rcases hstep st p c hc with h' | h'
      · exact h c h'
      · exact h'
  intro c hc
  rw [sectionChunks] at hc
  by_cases hfin : (pyStrip ((pySplitOn text "\n\n").foldl (chunkStep chunk_size title) ("", [])).1).isEmpty
  · rw [if_pos hfin] at hc
    exact hfold _ _ (by intro c hc; cases hc) c hc
  · rw [if_neg hfin] at hc
    rcases List.mem_append.mp hc with h | h
    · exact hfold _ _ (by intro c hc; cases hc) c h
    · rw [List.mem_singleton] at h
      subst h
      rfl

theorem forceString1_isStr (m : PyVal) : (forceString1 m).isStr = true := by
  rw [forceString1.eq_def]
  split
  · split
    · rfl
    · split <;> rfl
  · rfl

/-- C2: for every raw completion output, the list returned by the metric
discoverer's parsing logic contains only string values (the status in the
second component is a string by type). -/
theorem claim2_discover_returns_strings (raw : String) :
    ∀ x ∈ (discoverParse raw).1, x.isStr = true := by
  have hf : ∀ (l : List PyVal), ∀ x ∈ forceStrings l, x.isStr = true := by
    intro l x hx
    rcases List.mem_map.mp hx with ⟨y, _, rfl⟩
    exact forceString1_isStr y
  have hfb : ∀ x ∈ (discoverFallback raw).1, x.isStr = true := by
    intro x hx
    rw [discoverFallback] at hx
    by_cases h : (forceStrings ((regexFindall raw).map PyVal.str)).isEmpty
    · rw [if_pos h] at hx
      cases hx
    · rw [if_neg h] at hx
      exact hf _ x hx
  intro x hx
  unfold discoverParse at hx
  split at hx
  · exact hfb x hx
  · split at hx
    · exact hfb x hx
    · split at hx
      · exact hfb x hx
      · split at hx
        · exact hfb x hx
        · exact hf _ x hx

/-- Witness for C2 at a concrete completion output. -/
theorem claim2_witness :
    PyVal.str "Sample Size" ∈ (discoverParse "\x7b\"metrics\": [\"Sample Size\"]\x7d").1
    ∧ (PyVal.str "Sample Size").isStr = true := by
  have hm : PyVal.str "Sample Size" ∈ (discoverParse "\x7b\"metrics\": [\"Sample Size\"]\x7d").1 := by
    have h : (discoverParse "\x7b\"metrics\": [\"Sample Size\"]\x7d").1 = [PyVal.str "Sample Size"] := rfl
    rw [h]
    exact List.mem_singleton_self _
  exact ⟨hm, claim2_discover_returns_strings _ _ hm⟩

/-- C1 (code bug evidence): the locate-then-scoop extractor does raise to
its caller and does return a non-string value.  With a raising stage-1
retrieval the exception propagates; with a raising extractor completion the
first component of the returned pair is None, not a string; with an empty
stage-2 retrieval the function evaluates the undefined name
metric_definition and raises NameError. -/
theorem claim1_extract_failure_modes :
    extract_outcome_from_doc exEnvRaise "bmi" = Except.error (PyErr.other "retrieval down")
    ∧ extract_outcome_from_doc exEnvLLMBoom "bmi"
        = Except.ok [PyVal.none, PyVal.str "An error occurred during extraction: boom"]
    ∧ PyVal.isStr PyVal.none = false
    ∧ extract_outcome_from_doc exEnvEmptyScoop "bmi"
        = Except.error (PyErr.nameError "metric_definition") :=
  ⟨rfl, rfl, rfl, rfl⟩

/-- C3 (code bug evidence): strategy 1 of find_relevant_table_titles on
response "2, 5, 9" against a 6-item title list returns only the title at
index 2, because the code slices the in-range indices with [:1]; the
claimed cap of 3 would have kept indices 2 and 5. -/
theorem claim3_strategy1_caps_to_one :
    strategy1 ["Alpha", "Beta", "Gamma", "Delta", "Epsilon", "Zeta"] "2, 5, 9" = some ["Beta"]
    ∧ some ["Beta"] ≠ some ["Beta", "Epsilon"] := by
  refine ⟨rfl, ?_⟩
  intro h
  simp at h

/-- C8 counterexample: on the prose-wrapped response the discoverer returns
the empty list, not the claimed pair of strings. -/
theorem claim8_counterexample :
    discoverParse c8Input = ([], "Discovery complete but no numeric-like metrics found.")
    ∧ (discoverParse c8Input).1 ≠ [PyVal.str "Sample Size", PyVal.str "42"] := by
  have h : discoverParse c8Input
      = ([], "Discovery complete but no numeric-like metrics found.") := rfl
  refine ⟨h, ?_⟩
  rw [h]
  simp

/-- C8 amended: the strict JSON parse of the prose-wrapped response fails
(discover applies json.loads to the raw output, without clean_json_output),
the regex fallback finds no letter-adjacent-number candidate in it, and the
discoverer returns the empty list with the no-metrics status. -/
theorem claim8_amended_prose_json_falls_back :
    json_loads c8Input = Option.none
    ∧ regexFindall c8Input = []
    ∧ discoverParse c8Input = ([], "Discovery complete but no numeric-like metrics found.") :=
  ⟨rfl, rfl, rfl⟩

/-- C9 counterexample: a failed embedding call reaches embed_query as None,
and embed_query converts it to the empty list — exactly the silent empty
vector the claim rules out. -/
theorem claim9_counterexample :
    CustomHFEmbeddings_embed (EmbedApiOutcome.requestError "timeout") = Option.none
    ∧ embed_query (EmbedApiOutcome.requestError "timeout") = PyVal.list [] :=
  ⟨rfl, rfl⟩

/-- C9 amended: _embed does propagate every failure as the distinguishable
value None, but embed_query collapses a None (or empty) result to the empty
list. -/
theorem claim9_amended_embed_failure_becomes_empty :
    (∀ msg, CustomHFEmbeddings_embed (EmbedApiOutcome.requestError msg) = Option.none)
    ∧ CustomHFEmbeddings_embed EmbedApiOutcome.jsonError = Option.none
    ∧ (∀ v, embedWellFormed v = false
        → CustomHFEmbeddings_embed (EmbedApiOutcome.ok v) = Option.none)
    ∧ (∀ o, CustomHFEmbeddings_embed o = Option.none → embed_query o = PyVal.list []) := by
  refine ⟨fun _ => rfl, rfl, ?_, ?_⟩
  · intro v hv
    simp [CustomHFEmbeddings_embed, hv]
  · intro o ho
    rw [embed_query, ho]

/-- Witness for C9's amended theorem at a concrete malformed body. -/
theorem claim9_witness :
    embedWellFormed (PyVal.int 3) = false
    ∧ CustomHFEmbeddings_embed (EmbedApiOutcome.ok (PyVal.int 3)) = Option.none
    ∧ embed_query (EmbedApiOutcome.ok (PyVal.int 3)) = PyVal.list [] :=
  ⟨rfl, claim9_amended_embed_failure_becomes_empty.2.2.1 (PyVal.int 3) rfl,
    claim9_amended_embed_failure_becomes_empty.2.2.2 _
      (claim9_amended_embed_failure_becomes_empty.2.2.1 (PyVal.int 3) rfl)⟩

/-- C4 counterexample: when stage 1 has fallen back to the anchor itself
(exact name equal, case-insensitively, to the user outcome), stage 2 issues
one similarity query, not two. -/
theorem claim4_counterexample :
    ensembleRetrieve retrOne "bmi" (PyVal.str "bmi") = Except.ok ([RDoc.mk "chunkA"], ["bmi"])
    ∧ (["bmi"] : List String).length ≠ 2 := by
  refine ⟨rfl, ?_⟩
  simp

/-- C4 amended: stage 2 always queries with the anchor; it issues the second
query with the stage-1 exact name only when that name is non-empty and
differs case-insensitively from the anchor; the merged result is
deduplicated by exact chunk text in first-seen order, anchor results first. -/
theorem claim4_ensemble_amended (rf : String → List RDoc) (uo exact : String) :
    ensembleRetrieve (fun q => Except.ok (rf q)) uo (PyVal.str exact)
      = Except.ok (if ¬exact.isEmpty = true ∧ ¬pyLower exact = pyLower uo
          then (dedupByText (rf uo ++ rf exact), [uo, exact])
          else (dedupByText (rf uo), [uo]))
    ∧ ∀ docs : List RDoc, (dedupByText docs).map (fun d => d.page_content)
        = firstSeen (docs.map (fun d => d.page_content)) := by
  constructor
  · simp only [ensembleRetrieve]
    by_cases h1 : exact.isEmpty = true
    · rw [if_pos h1, if_neg (by simp [h1])]
    · rw [if_neg h1]
      by_cases h2 : pyLower exact = pyLower uo
      · rw [if_pos h2, if_neg (by simp [h2])]
      · rw [if_neg h2, if_pos ⟨h1, h2⟩]
  · exact dedupByText_texts

/-- C5: when the locator completion raises, is unparseable (json.loads
fails), parses to a non-dict JSON value (such as the literal null the prompt
invites, whose .get raises AttributeError inside the try), or parses to a
dict without a truthy exact_metric_name field, extraction neither crashes
nor returns early: it runs stage 2 with the user outcome verbatim as the
exact metric name. -/
theorem claim5_locator_fallback (env : ExtractEnv) (uo : String) (cs : List RDoc)
    (hret : env.locatorRetrieve uo = Except.ok cs) (hne : ¬cs.isEmpty = true)
    (hbad : (∃ e, env.locatorLLM = Except.error e)
      ∨ (∃ c, env.locatorLLM = Except.ok c ∧ json_loads (clean_json_output c) = Option.none)
      ∨ (∃ c v, env.locatorLLM = Except.ok c
          ∧ json_loads (clean_json_output c) = some v
          ∧ ∀ d, v = PyVal.dict d →
              ∀ mv, assocGet d "exact_metric_name" = some mv → pyTruthy mv = false)) :
    extract_outcome_from_doc env uo = scoopStage env uo (PyVal.str uo) := by
  have hname : locateExactName env.locatorLLM uo = PyVal.str uo := by
    rcases hbad with ⟨e, he⟩ | ⟨c, hc, hp⟩ | ⟨c, v, hc, hp, hfield⟩
    · simp only [locateExactName, he]
    · simp only [locateExactName, hc, hp]
    · cases v with
      | dict d =>
        simp only [locateExactName, hc, hp]
        cases hmv : assocGet d "exact_metric_name" with
        | none => simp
        | some mv => simp [hfield d rfl mv hmv]
      | none => simp [locateExactName, hc, hp]
      | bool b => simp [locateExactName, hc, hp]
      | int n => simp [locateExactName, hc, hp]
      | float f => simp [locateExactName, hc, hp]
      | str t => simp [locateExactName, hc, hp]
      | list l => simp [locateExactName, hc, hp]
  simp only [extract_outcome_from_doc, hret]
  rw [if_neg hne, hname]

/-- Witness for C5 at a concrete environment whose locator output is the
literal null (a non-dict JSON value). -/
theorem claim5_witness :
    exEnvNullLocator.locatorRetrieve "x" = Except.ok [RDoc.mk "chunk"]
    ∧ json_loads (clean_json_output "null") = some PyVal.none
    ∧ extract_outcome_from_doc exEnvNullLocator "x"
        = scoopStage exEnvNullLocator "x" (PyVal.str "x") :=
  ⟨rfl, rfl, claim5_locator_fallback exEnvNullLocator "x" [RDoc.mk "chunk"] rfl (by simp)
    (Or.inr (Or.inr ⟨"null", PyVal.none, rfl, rfl, fun d h => PyVal.noConfusion h⟩))⟩

/-- C6: each row of the library metrics table counts one document per
document whose raw metric list contains (case-insensitively) a synonym of
the row's canonical name; its prevalence is count / totalDocs * 100; the
table is sorted descending by document count. -/
theorem claim6_aggregation (nm : List (String × List String)) (docsMetrics : List (List String))
    (totalDocs : Nat) (row : MetricRow)
    (hrow : row ∈ libraryMetricsTable nm docsMetrics totalDocs) :
    row.count = docsMetrics.countP (fun d => d.any
        (fun m => assocGet (synonymToCanonical nm) (pyLower m) == some row.name))
    ∧ row.prevalence = ((row.count : ℚ) / (totalDocs : ℚ)) * 100
    ∧ List.Sorted rowGE (libraryMetricsTable nm docsMetrics totalDocs) := by
  have hsorted : List.Sorted rowGE (libraryMetricsTable nm docsMetrics totalDocs) := by
    simp only [libraryMetricsTable]
    exact List.sorted_insertionSort rowGE _
  have hmem : row ∈ (canonicalCounts (synonymToCanonical nm) docsMetrics).map
      (fun p => MetricRow.mk p.1 p.2 (((p.2 : ℚ) / (totalDocs : ℚ)) * 100)) := by
    simp only [libraryMetricsTable] at hrow
    rwa [List.mem_insertionSort] at hrow
  rcases List.mem_map.mp hmem with ⟨p, hp, rfl⟩
  refine ⟨?_, rfl, hsorted⟩
  have h1 := countVal_of_mem_canonicalCounts hp
  have h2 := countP_ext
    (fun d => decide (p.1 ∈ docCanonicalSet (synonymToCanonical nm) d))
    (fun d => d.any (fun m => assocGet (synonymToCanonical nm) (pyLower m) == some p.1))
    docsMetrics
    (fun d => decide_mem_docCanonicalSet (synonymToCanonical nm) p.1 d)
  exact h1.trans h2

/-- Witness for C6: one document contributing BMI, Body Mass Index and Age
under the two-entry canonical map yields count 1 (and prevalence 100%) for
the BMI row. -/
theorem claim6_witness :
    (MetricRow.mk "BMI (kg/m^2)" 1 ((((1 : Nat) : ℚ) / ((1 : Nat) : ℚ)) * 100)
        ∈ libraryMetricsTable c6Map c6Docs 1)
    ∧ (1 = c6Docs.countP (fun d => d.any
          (fun m => assocGet (synonymToCanonical c6Map) (pyLower m) == some "BMI (kg/m^2)"))
       ∧ (((1 : Nat) : ℚ) / ((1 : Nat) : ℚ)) * 100 = (((1 : Nat) : ℚ) / ((1 : Nat) : ℚ)) * 100
       ∧ List.Sorted rowGE (libraryMetricsTable c6Map c6Docs 1)) := by
  have hm : MetricRow.mk "BMI (kg/m^2)" 1 ((((1 : Nat) : ℚ) / ((1 : Nat) : ℚ)) * 100)
      ∈ libraryMetricsTable c6Map c6Docs 1 := by
    have h : libraryMetricsTable c6Map c6Docs 1
        = [MetricRow.mk "BMI (kg/m^2)" 1 ((((1 : Nat) : ℚ) / ((1 : Nat) : ℚ)) * 100),
           MetricRow.mk "Age (years)" 1 ((((1 : Nat) : ℚ) / ((1 : Nat) : ℚ)) * 100)] := rfl
    rw [h]
    exact List.mem_cons_self _ _
  exact ⟨hm, claim6_aggregation c6Map c6Docs 1 _ hm⟩

/-- C7: every produced chunk carries the title of the single input section
whose text it came from, and a section whose text is empty or
whitespace-only contributes zero chunks (chunking is unchanged when such
sections are removed). -/
theorem claim7_chunk_section_integrity (chunk_size overlap : Nat)
    (sections : List (String × String)) :
    (∀ c ∈ chunk_text chunk_size overlap sections,
      ∃ s ∈ sections, c.sec = s.1 ∧ ¬(pyStrip s.2).isEmpty = true
        ∧ c ∈ sectionChunks chunk_size s.1 s.2)
    ∧ chunk_text chunk_size overlap sections
        = chunk_text chunk_size overlap (sections.filter (fun s => !(pyStrip s.2).isEmpty)) := by
  constructor
  · intro c hc
    rw [chunk_text] at hc
    rcases List.mem_flatMap.mp hc with ⟨s, hs, hcs⟩
    by_cases h : (pyStrip s.2).isEmpty = true
    · rw [if_pos h] at hcs
      cases hcs
    · rw [if_neg h] at hcs
      exact ⟨s, hs, sectionChunks_sec chunk_size s.1 s.2 c hcs, h, hcs⟩
  · rw [chunk_text, chunk_text]
    induction sections with
    | nil => rfl
    | cons s t ih =>
      rw [List.flatMap_cons, List.filter_cons]
      by_cases h : (pyStrip s.2).isEmpty = true
      · simp only [h, Bool.not_true, if_true, cond_false]
        simp [h, ih]
      · simp [h, ih]

/-- Witness for C7 at the two-section scenario. -/
theorem claim7_witness :
    IngestChunk.mk "Study of X." "Abstract" ∈ chunk_text 1500 200 sections0
    ∧ ∃ s ∈ sections0, (IngestChunk.mk "Study of X." "Abstract").sec = s.1
        ∧ ¬(pyStrip s.2).isEmpty = true
        ∧ IngestChunk.mk "Study of X." "Abstract" ∈ sectionChunks 1500 s.1 s.2 := by
  have hm : IngestChunk.mk "Study of X." "Abstract" ∈ chunk_text 1500 200 sections0 := by
    have h : chunk_text 1500 200 sections0
        = [IngestChunk.mk "Study of X." "Abstract",
           IngestChunk.mk "A: 10mg. B: 12mg." "Results"] := rfl
    rw [h]
    exact List.mem_cons_self _ _
  exact ⟨hm, (claim7_chunk_section_integrity 1500 200 sections0).1 _ hm⟩

theorem rowlist_map_fst {β : Type} (rowBody : String → β) (l : List String) :
    ∀ acc : List (String × β),
      (l.foldl (fun acc src => if strContainsSub src "clinicaltrials.gov" then acc
          else acc ++ [(src, rowBody src)]) acc).map (fun r => r.1)
        = acc.map (fun r => r.1) ++ l.filter (fun s => !strContainsSub s "clinicaltrials.gov") := by
  induction l with
  | nil => intro acc; simp
  | cons s t ih =>
    intro acc
    rw [List.foldl_cons, List.filter_cons]
    by_cases h : strContainsSub s "clinicaltrials.gov" = true
    · rw [if_pos h, ih]
      simp [h]
    · rw [if_neg h, ih]
      simp [h]

/-- C10: the batch table generator emits one row per unique source whose URL
does not contain "clinicaltrials.gov", and no row for any source whose URL
does. -/
theorem claim10_ct_sources_skipped {β : Type} (rowBody : String → β) (ms : List String) :
    (generate_outcome_table_rowlist rowBody ms).map (fun r => r.1)
      = (uniqueSources ms).filter (fun s => !strContainsSub s "clinicaltrials.gov")
    ∧ ∀ s : String,
        (s ∈ (generate_outcome_table_rowlist rowBody ms).map (fun r => r.1)
          ↔ s ∈ ms ∧ strContainsSub s "clinicaltrials.gov" = false) := by
  have h1 : (generate_outcome_table_rowlist rowBody ms).map (fun r => r.1)
      = (uniqueSources ms).filter (fun s => !strContainsSub s "clinicaltrials.gov") := by
    rw [generate_outcome_table_rowlist, rowlist_map_fst rowBody _ []]
    simp
  refine ⟨h1, ?_⟩
  intro s
  rw [h1, List.mem_filter]
  have h2 : s ∈ uniqueSources ms ↔ s ∈ ms := by
    rw [uniqueSources, List.mem_insertionSort, mem_firstSeen]
  rw [h2]
  simp

/-- Witness for C10 at a two-source index. -/
theorem claim10_witness :
    ("https://pubmed.x/1"
        ∈ (generate_outcome_table_rowlist (fun _ => (0 : Nat)) msC10).map (fun r => r.1))
      ↔ ("https://pubmed.x/1" ∈ msC10
          ∧ strContainsSub "https://pubmed.x/1" "clinicaltrials.gov" = false) :=
  (claim10_ct_sources_skipped (fun _ => (0 : Nat)) msC10).2 "https://pubmed.x/1"
